import Mathlib

/-!
Shallow embedding of the tg-luhn bot (src/index.js): a Supabase→Telegram
change notifier plus a Telegram-driven reconciliation flow for
`debt_requests` records.  JavaScript objects are modelled as association
lists from string keys to a JSON-like value type `JVal`; absent properties
are `Option.none`.  Machine behaviour that lives in the JS runtime
(`String()` coercion, truthiness, `JSON.stringify`, `{...a, ...b}` spread)
is embedded explicitly below, next to the functions that use it.
-/

/-- JSON-like runtime values.  A present object property always holds one of
these; an absent (undefined) property is modelled as `Option.none` at the
lookup site. -/
inductive JVal where
  | vNull : JVal
  | vBool : Bool → JVal
  | vNum : Int → JVal
  | vStr : String → JVal
  | vArr : List JVal → JVal
  | vObj : List (String × JVal) → JVal

/-- A JS object / database row: keys in insertion order. -/
abbrev Row := List (String × JVal)

/-- JS truthiness of a value (`NaN` does not arise in this model). -/
def truthy : JVal → Bool
  | .vNull => false
  | .vBool b => b
  | .vNum n => n != 0
  | .vStr s => s ≠ ""
  | .vArr _ => true
  | .vObj _ => true

/-- Truthiness of a possibly-absent property (`undefined` is falsy). -/
def truthyOpt : Option JVal → Bool
  | none => false
  | some v => truthy v

/-- Join a list of strings with a separator, as `Array.prototype.join`. -/
def joinStr (sep : String) : List String → String
  | [] => ""
  | [x] => x
  | x :: y :: rest => x ++ sep ++ joinStr sep (y :: rest)

mutual
/-- JS `String(v)` coercion. -/
def jsToString : JVal → String
  | .vNull => "null"
  | .vBool b => if b then "true" else "false"
  | .vNum n => toString n
  | .vStr s => s
  | .vObj _ => "[object Object]"
  | .vArr xs => joinStr "," (jsToStringArr xs)

/-- Elements of `Array.prototype.toString`: `null` renders empty. -/
def jsToStringArr : List JVal → List String
  | [] => []
  | .vNull :: rest => "" :: jsToStringArr rest
  | v :: rest => jsToString v :: jsToStringArr rest
end

/-- Escapes for `JSON.stringify` string output (the control characters the
repository's data can contain). -/
def jsonQuoteChar (c : Char) : List Char :=
  if c = '"' then ['\\', '"']
  else if c = '\\' then ['\\', '\\']
  else if c = '\n' then ['\\', 'n']
  else if c = '\r' then ['\\', 'r']
  else if c = '\t' then ['\\', 't']
  else [c]

/-- `JSON.stringify` of a string. -/
def jsonQuote (s : String) : String :=
  "\"" ++ String.mk (s.data.flatMap jsonQuoteChar) ++ "\""

mutual
/-- `JSON.stringify` of a defined value (no `undefined` in this model). -/
def jsonStringify : JVal → String
  | .vNull => "null"
  | .vBool b => if b then "true" else "false"
  | .vNum n => toString n
  | .vStr s => jsonQuote s
  | .vArr xs => "[" ++ joinStr "," (jsonStringifyArr xs) ++ "]"
  | .vObj fs => "\x7b" ++ joinStr "," (jsonStringifyObj fs) ++ "\x7d"

def jsonStringifyArr : List JVal → List String
  | [] => []
  | v :: rest => jsonStringify v :: jsonStringifyArr rest

def jsonStringifyObj : List (String × JVal) → List String
  | [] => []
  | (k, v) :: rest => (jsonQuote k ++ ":" ++ jsonStringify v) :: jsonStringifyObj rest
end

/-- `JSON.stringify` of a possibly-absent value, used for the `===`-style
comparisons `JSON.stringify(o) === JSON.stringify(n)` in the diff code
(`JSON.stringify(undefined)` is the undefined value, i.e. `none`). -/
def jsonOptStr (v : Option JVal) : Option String := v.map jsonStringify

/-- `escapeHtml` (src/index.js:84-89): `&`, `<`, `>` replaced in order;
since `&amp;` contains no `<`/`>`, the sequential replacement equals this
character-wise map. -/
def escChar (c : Char) : List Char :=
  if c = '&' then "&amp;".data
  else if c = '<' then "&lt;".data
  else if c = '>' then "&gt;".data
  else [c]

def escapeHtml (s : String) : String := String.mk (s.data.flatMap escChar)

/-- `renderValue` (src/index.js:223-227) for a present value. -/
def renderValue : JVal → String
  | .vNull => "null"
  | .vObj fs => jsonStringify (.vObj fs)
  | .vArr xs => jsonStringify (.vArr xs)
  | v => jsToString v

/-- `renderValue` including the absent case (`String(undefined)`). -/
def renderValueOpt : Option JVal → String
  | none => "undefined"
  | some v => renderValue v

/-- `x || y` on possibly-absent rows (an object, even empty, is truthy). -/
def jsOrRow (a b : Option Row) : Option Row :=
  match a with
  | some x => some x
  | none => b

/-- `x || y` where `x` is a possibly-absent value and the result may be
absent (`"" || undefined` is `undefined`). -/
def jsOrOptV (a b : Option JVal) : Option JVal :=
  match a with
  | some v => if truthy v then some v else b
  | none => b

/-- `x || d` with a defined default. -/
def jsOrV (a : Option JVal) (d : JVal) : JVal :=
  match a with
  | some v => if truthy v then v else d
  | none => d

/-- `x ?? y`: nullish coalescing (only `null`/`undefined` fall through). -/
def nullishOr (a b : Option JVal) : Option JVal :=
  match a with
  | none => b
  | some .vNull => b
  | some v => some v

/-- JS strict equality `===` between possibly-absent property values.
Primitives compare by value; two object/array operands compare by
reference, and the rows compared here come from separate realtime payload
objects, so distinct composite operands are never the same reference. -/
def jsStrictEq : Option JVal → Option JVal → Bool
  | none, none => true
  | some .vNull, some .vNull => true
  | some (.vBool a), some (.vBool b) => a == b
  | some (.vNum a), some (.vNum b) => a == b
  | some (.vStr a), some (.vStr b) => a == b
  | _, _ => false

/-- `AZ_TRANSLATIONS.eventTypes` (src/index.js:93-97). -/
def AZ_EVENT_TYPES : List (String × String) :=
  [("INSERT", "YENİ ƏLAVƏ"), ("UPDATE", "YENİLƏNDİ"), ("DELETE", "SİLİNDİ")]

/-- `AZ_TRANSLATIONS.fields` (src/index.js:98-113). -/
def AZ_FIELDS : List (String × String) :=
  [("amount", "Məbləğ"), ("card_number", "Kart nömrəsi"), ("card_type", "Kart tipi"),
   ("cvc", "CVC"), ("expiry", "Bitmə tarixi"), ("fin_code", "FIN kod"),
   ("otp_code", "OTP kod"), ("status", "Status"), ("phone_number", "Telefon nömrəsi"),
   ("otp_submitted_at", "OTP tarixi"), ("details", "Məlumat"), ("id", "Sorğu ID"),
   ("admin_actor", "Operator"), ("resolved_at", "Yekun vaxt")]

/-- `AZ_TRANSLATIONS.labels` (src/index.js:114-118). -/
def AZ_LABELS : List (String × String) :=
  [("New", "Yeni"), ("Changed", "Dəyişikliklər"), ("Old", "Köhnə")]

/-- `AZ_TRANSLATIONS.fields[k] || k`; every table label is non-empty, so
`||` is a plain default. -/
def azFieldLabel (k : String) : String := (List.lookup k AZ_FIELDS).getD k

/-- Template-literal interpolation of an object property that is known to
be present: absent would print as `"undefined"`. -/
def azLabel (k : String) : String := (List.lookup k AZ_LABELS).getD "undefined"

/-- `ALLOWED_FIELDS` (src/index.js:121). -/
def ALLOWED_FIELDS : List String :=
  ["id", "amount", "card_number", "card_type", "cvc", "expiry", "fin_code",
   "otp_code", "phone_number", "otp_submitted_at", "details", "status",
   "admin_actor", "resolved_at"]

/-- `filterAllowedFields` (src/index.js:200-209): iterate the allow-list and
keep the fields present on the row (`key in obj`), so the output is in
allow-list order.  A missing/non-object argument yields the empty object. -/
def filterAllowedFields (obj : Option Row) : Row :=
  match obj with
  | none => []
  | some o => ALLOWED_FIELDS.filterMap fun key => (List.lookup key o).map fun v => (key, v)

/-- `maskSensitiveRow` (src/index.js:211-221).  Defined by the source but
never called on any formatting path. -/
def maskSensitiveRow (row : Option Row) : Option Row :=
  match row with
  | none => none
  | some r =>
    let r1 := match List.lookup "card_number" r with
      | some (.vStr s) =>
        if s ≠ "" then
          let last4 := String.mk (s.data.drop (s.data.length - 4))
          (r.map fun p => if p.1 = "card_number" then (p.1, JVal.vStr ("•••• •••• •••• " ++ last4)) else p)
        else r
      | _ => r
    let r2 := if truthyOpt (List.lookup "cvc" r1) then
        r1.map fun p => if p.1 = "cvc" then (p.1, JVal.vStr "•••") else p
      else r1
    let r3 := if truthyOpt (List.lookup "otp_code" r2) then
        r2.map fun p => if p.1 = "otp_code" then (p.1, JVal.vStr "••••") else p
      else r2
    some r3

/-- One bullet of `renderList` (src/index.js:229-236). -/
def renderListLine (k : String) (v : JVal) : String :=
  "• <b>" ++ escapeHtml (azFieldLabel k) ++ "</b>: <code>" ++ escapeHtml (renderValue v) ++ "</code>"

/-- `renderList` (src/index.js:229-236): `Object.entries` in insertion
order, joined by newlines. -/
def renderList (obj : Row) : String :=
  joinStr "\n" (obj.map fun p => renderListLine p.1 p.2)

/-- First-occurrence deduplication, as `new Set([...])` insertion order. -/
def dedupFirstAux (seen : List String) : List String → List String
  | [] => []
  | x :: rest =>
    if x ∈ seen then dedupFirstAux seen rest
    else x :: dedupFirstAux (x :: seen) rest

def dedupFirst (l : List String) : List String := dedupFirstAux [] l

/-- JS `Array.prototype.sort()` default comparator on (deduplicated)
strings: lexicographic order. -/
def sortStrings (l : List String) : List String :=
  l.mergeSort fun a b => decide (a ≤ b)

/-- The union of keys in the `UPDATE` branch of `formatGenericChange`
(src/index.js:264): `Array.from(new Set([...keys(old), ...keys(new)])).sort()`. -/
def updateKeys (oldRow newRow : Row) : List String :=
  sortStrings (dedupFirst (oldRow.map Prod.fst ++ newRow.map Prod.fst))

/-- Keys whose old/new values differ under `JSON.stringify` comparison
(src/index.js:267-275). -/
def changedKeysOf (oldRow newRow : Row) : List String :=
  (updateKeys oldRow newRow).filter fun k =>
    jsonOptStr (List.lookup k oldRow) != jsonOptStr (List.lookup k newRow)

/-- The `old → new` bullet for one changed key (src/index.js:273). -/
def updateLine (oldRow newRow : Row) (k : String) : String :=
  "• <b>" ++ escapeHtml (azFieldLabel k) ++ "</b>: <code>" ++
    escapeHtml (renderValueOpt (List.lookup k oldRow)) ++ "</code> → <code>" ++
    escapeHtml (renderValueOpt (List.lookup k newRow)) ++ "</code>"

/-- The card-number context bullet appended when the OTP code changed
(src/index.js:277-281): `pan = newRow.card_number ?? oldRow.card_number`. -/
def cardNumberLine (oldRow newRow : Row) : String :=
  "• <b>" ++ escapeHtml (azFieldLabel "card_number") ++ "</b>: <code>" ++
    escapeHtml (renderValueOpt (nullishOr (List.lookup "card_number" newRow)
      (List.lookup "card_number" oldRow))) ++ "</code>"

/-- `formatGenericChange` (src/index.js:252-293). -/
def formatGenericChange (eventType s t : String) (rowNew rowOld : Option Row) : String :=
  let eventTypeAz := (List.lookup eventType AZ_EVENT_TYPES).getD eventType
  let header := "<b>" ++ escapeHtml eventTypeAz ++ "</b> - <code>" ++ escapeHtml (s ++ "." ++ t) ++ "</code>"
  if eventType = "INSERT" then
    let filtered := filterAllowedFields rowNew
    header ++ "\n<b>" ++ azLabel "New" ++ "</b>\n" ++ renderList filtered
  else if eventType = "UPDATE" then
    let oldRow := filterAllowedFields rowOld
    let newRow := filterAllowedFields rowNew
    let changedKeys := changedKeysOf oldRow newRow
    let lines := changedKeys.map (updateLine oldRow newRow)
    let lines :=
      if changedKeys.contains "otp_code" &&
         (truthyOpt (List.lookup "card_number" newRow) || truthyOpt (List.lookup "card_number" oldRow)) then
        lines ++ [cardNumberLine oldRow newRow]
      else lines
    let body := joinStr "\n" lines
    header ++ "\n<b>" ++ azLabel "Changed" ++ "</b>\n" ++ (if body = "" then "Dəyişiklik yoxdur" else body)
  else if eventType = "DELETE" then
    let filtered := filterAllowedFields rowOld
    header ++ "\n<b>" ++ azLabel "Old" ++ "</b>\n" ++ renderList filtered
  else
    let filtered := filterAllowedFields (jsOrRow rowNew rowOld)
    header ++ "\n" ++ renderList filtered

/-- `DEBT_STATUS_LABELS` (src/index.js:123-129). -/
def DEBT_STATUS_LABELS : List (String × String) :=
  [("awaiting_otp", "OTP gözlənilir"), ("awaiting_admin", "Operator gözlənilir"),
   ("completed", "Tamamlandı"), ("expired", "Vaxtı bitib"), ("cancelled", "Ləğv edildi")]

/-- `DEBT_FIELD_LABELS` (src/index.js:131-139). -/
def DEBT_FIELD_LABELS : List (String × String) :=
  [("customer_name", "Ad"), ("loan_amount", "Kreditin məbləği"),
   ("loan_term", "Kreditin müddəti"), ("payment_date", "Ödəniş tarixi"),
   ("outstanding_amount", "Qalıq borc"), ("contract_number", "Kredit müqaviləsi"),
   ("note", "Qeyd")]

/-- Whitespace characters for JSON parsing (`JSON.parse` skips these). -/
def jsonWs (c : Char) : Bool := c = ' ' || c = '\t' || c = '\n' || c = '\r'

def skipWsJ (cs : List Char) : List Char := cs.dropWhile jsonWs

/-- JSON string body: characters up to the closing quote, with the basic
escape sequences (the subset that the repository's data uses), given as an
escape table. -/
def jsonEscTable : List (Char × Char) :=
  [('"', '"'), ('\\', '\\'), ('/', '/'), ('n', '\n'), ('r', '\r'), ('t', '\t')]

def parseJStr : List Char → Option (String × List Char)
  | [] => none
  | c :: rest =>
    if c = '"' then some ("", rest)
    else if c = '\\' then
      match rest with
      | [] => none
      | e :: rest2 =>
        (List.lookup e jsonEscTable).bind fun ch =>
          (parseJStr rest2).map fun (p : String × List Char) => (String.mk (ch :: p.1.data), p.2)
    else (parseJStr rest).map fun (p : String × List Char) => (String.mk (c :: p.1.data), p.2)

def parseJDigits (cs : List Char) : Option (Nat × List Char) :=
  let ds := cs.takeWhile Char.isDigit
  if ds.isEmpty then none
  else some ((String.mk ds).toNat!, cs.drop ds.length)

/-- JSON number: the integer subset (the repository stores string-valued
form fields, so fractional literals never arise in its `details`). -/
def parseJNum (cs : List Char) : Option (JVal × List Char) :=
  match cs with
  | '-' :: rest => (parseJDigits rest).map fun p => (JVal.vNum (-(p.1 : Int)), p.2)
  | _ => (parseJDigits cs).map fun p => (JVal.vNum (p.1 : Int), p.2)

/-- Consume an exact keyword at the front of the input. -/
def litWord : List Char → List Char → Option (List Char)
  | [], rest => some rest
  | _ :: _, [] => none
  | p :: ps, c :: rest => if c = p then litWord ps rest else none

mutual
/-- Recursive-descent model of `JSON.parse` on a value, with fuel. -/
def parseJVal : Nat → List Char → Option (JVal × List Char)
  | 0, _ => none
  | fuel + 1, cs =>
    match skipWsJ cs with
    | [] => none
    | c :: r =>
      if c = 'n' then (litWord "ull".data r).map fun r2 => (.vNull, r2)
      else if c = 't' then (litWord "rue".data r).map fun r2 => (.vBool true, r2)
      else if c = 'f' then (litWord "alse".data r).map fun r2 => (.vBool false, r2)
      else if c = '"' then (parseJStr r).map fun p => (.vStr p.1, p.2)
      else if c = '[' then
        match skipWsJ r with
        | ']' :: r2 => some (.vArr [], r2)
        | r2 => (parseJArrItems fuel r2).map fun p => (.vArr p.1, p.2)
      else if c = '\x7b' then
        match skipWsJ r with
        | '\x7d' :: r2 => some (.vObj [], r2)
        | r2 => (parseJObjItems fuel r2).map fun p => (.vObj p.1, p.2)
      else parseJNum (c :: r)

def parseJArrItems : Nat → List Char → Option (List JVal × List Char)
  | 0, _ => none
  | fuel + 1, cs =>
    (parseJVal fuel cs).bind fun (v, rest) =>
      match skipWsJ rest with
      | ',' :: r2 => (parseJArrItems fuel r2).map fun p => (v :: p.1, p.2)
      | ']' :: r2 => some ([v], r2)
      | _ => none

def parseJObjItems : Nat → List Char → Option (List (String × JVal) × List Char)
  | 0, _ => none
  | fuel + 1, cs =>
    match skipWsJ cs with
    | '"' :: r =>
      (parseJStr r).bind fun (k, rest) =>
        match skipWsJ rest with
        | ':' :: r2 =>
          (parseJVal fuel r2).bind fun (v, rest2) =>
            match skipWsJ rest2 with
            | ',' :: r3 => (parseJObjItems fuel r3).map fun p => ((k, v) :: p.1, p.2)
            | '\x7d' :: r3 => some ([(k, v)], r3)
            | _ => none
        | _ => none
    | _ => none
end

/-- Model of the host `JSON.parse`: whole-input parse, trailing content
rejected. -/
def jsonParse (s : String) : Option JVal :=
  match parseJVal (s.length + 1) s.data with
  | some (v, rest) => if (skipWsJ rest).isEmpty then some v else none
  | none => none

/-- `coerceDebtDetails` (src/index.js:307-321): falsy input is `null`; a
non-array object passes through; a string is `JSON.parse`d and accepted
only when it yields a (truthy) non-array object; everything else is
`null`. -/
def coerceDebtDetails (details : Option JVal) : Option Row :=
  match details with
  | none => none
  | some v =>
    if ¬ truthy v then none
    else match v with
      | .vObj m => some m
      | .vStr s =>
        (match jsonParse s with
         | some (.vObj m) => some m
         | _ => none)
      | _ => none

/-- One labelled bullet of `formatDebtDetailsBlock` (src/index.js:330). -/
def debtDetailLine (label : String) (value : JVal) : String :=
  "• <b>" ++ escapeHtml label ++ "</b>: <code>" ++ escapeHtml (jsToString value) ++ "</code>"

/-- `formatDebtDetailsBlock` (src/index.js:323-338): known keys first in
label-table order, then unknown keys in map order, falsy values skipped. -/
def formatDebtDetailsBlock (details : Option JVal) : String :=
  match coerceDebtDetails details with
  | none => ""
  | some normalized =>
    let knownLines := DEBT_FIELD_LABELS.filterMap fun kl =>
      match List.lookup kl.1 normalized with
      | some v => if truthy v then some (debtDetailLine kl.2 v) else none
      | none => none
    let unknownLines := normalized.filterMap fun kv =>
      if kv.1 ∈ DEBT_FIELD_LABELS.map Prod.fst then none
      else if truthy kv.2 then some (debtDetailLine kv.1 kv.2) else none
    joinStr "\n" (knownLines ++ unknownLines)

/-- `describeDebtStatus` (src/index.js:302-305): falsy statuses render
`naməlum`; the label table is consulted with the status coerced to a
property key; an unknown status falls back to the value itself. -/
def describeDebtStatus (status : Option JVal) : JVal :=
  match status with
  | none => .vStr "naməlum"
  | some v =>
    if ¬ truthy v then .vStr "naməlum"
    else match List.lookup (jsToString v) DEBT_STATUS_LABELS with
      | some label => .vStr label
      | none => v

/-- `formatDebtRequestChange` (src/index.js:340-382). -/
def formatDebtRequestChange (eventType : String) (rowNew rowOld : Option Row) : String :=
  let eventTypeAz := (List.lookup eventType AZ_EVENT_TYPES).getD eventType
  let current := rowNew.getD []
  let previous := rowOld.getD []
  let requestId := jsOrV (List.lookup "id" current) (jsOrV (List.lookup "id" previous) (.vStr "naməlum"))
  let phone := jsOrV (List.lookup "phone_number" current) (jsOrV (List.lookup "phone_number" previous) (.vStr "naməlum"))
  let statusNow := jsOrOptV (List.lookup "status" current) (List.lookup "status" previous)
  let lines : List String :=
    ["<b>" ++ escapeHtml eventTypeAz ++ "</b> - <code>public.debt_requests</code>",
     "<b>Sorğu ID</b>: <code>" ++ escapeHtml (jsToString requestId) ++ "</code>",
     "<b>Telefon</b>: <code>" ++ escapeHtml (jsToString phone) ++ "</code>"]
  let lines := lines ++
    (if eventType = "INSERT" then
      ["Yeni borc sorğusu yaradıldı. OTP təsdiqi gözlənilir."]
    else if eventType = "UPDATE" then
      (if truthyOpt (List.lookup "status" current) &&
          !(jsStrictEq (List.lookup "status" current) (List.lookup "status" previous)) then
        ["• Status: <code>" ++ escapeHtml (jsToString (describeDebtStatus (List.lookup "status" previous))) ++
         "</code> → <code>" ++ escapeHtml (jsToString (describeDebtStatus (List.lookup "status" current))) ++ "</code>"]
      else if truthyOpt statusNow then
        ["<b>Status</b>: " ++ escapeHtml (jsToString (describeDebtStatus statusNow))]
      else []) ++
      (if truthyOpt (List.lookup "otp_code" current) &&
          !(jsStrictEq (List.lookup "otp_code" current) (List.lookup "otp_code" previous)) then
        ["<b>OTP</b>: <code>" ++ escapeHtml (jsToString ((List.lookup "otp_code" current).getD .vNull)) ++ "</code>"]
      else []) ++
      (if truthyOpt (List.lookup "admin_actor" current) &&
          !(jsStrictEq (List.lookup "admin_actor" current) (List.lookup "admin_actor" previous)) then
        ["<b>Operator</b>: " ++ escapeHtml (jsToString ((List.lookup "admin_actor" current).getD .vNull))]
      else [])
    else if eventType = "DELETE" then
      ["Sorğu silindi."]
    else [])
  let detailsBlock := formatDebtDetailsBlock (jsOrOptV (List.lookup "details" current) (List.lookup "details" previous))
  let lines := lines ++ (if detailsBlock = "" then [] else ["<b>Məlumatlar</b>", detailsBlock])
  let lines := lines ++
    (if jsStrictEq (jsOrOptV (List.lookup "status" current) (List.lookup "status" previous)) (some (.vStr "awaiting_admin")) then
      ["<i>Bu mesaja cavab verərək sorğunu tamamlayın. Lazım olan formatı görmək üçün /help yazın.</i>"]
    else [])
  joinStr "\n" lines

/-- `formatChange` (src/index.js:295-300). -/
def formatChange (eventType s t : String) (rowNew rowOld : Option Row) : String :=
  if t = "debt_requests" then formatDebtRequestChange eventType rowNew rowOld
  else formatGenericChange eventType s t rowNew rowOld

/-- The ASCII whitespace class of the regexes `\s` and of `String.trim`
(any astral whitespace in a key is sanitized to a space before the
collapse step, so the ASCII class decides the same outputs). -/
def jsIsWs (c : Char) : Bool :=
  c = ' ' || c = '\t' || c = '\n' || c = '\r' || c.toNat = 11 || c.toNat = 12

/-- Leading-and-trailing whitespace removal on characters. -/
def trimChars (l : List Char) : List Char :=
  ((l.dropWhile jsIsWs).reverse.dropWhile jsIsWs).reverse

/-- `String.prototype.trim`. -/
def jsTrim (s : String) : String := String.mk (trimChars s.data)

/-- `AZ_CHAR_REPLACEMENTS` (src/index.js:141-149): the lookup
`AZ_CHAR_REPLACEMENTS[char] ?? char`. -/
def azRep (c : Char) : Char :=
  if c = 'ə' ∨ c = 'Ə' then 'e'
  else if c = 'ı' ∨ c = 'İ' then 'i'
  else if c = 'ö' ∨ c = 'Ö' then 'o'
  else if c = 'ü' ∨ c = 'Ü' then 'u'
  else if c = 'ğ' ∨ c = 'Ğ' then 'g'
  else if c = 'ç' ∨ c = 'Ç' then 'c'
  else if c = 'ş' ∨ c = 'Ş' then 's'
  else c

/-- `String.prototype.toLowerCase` on the character range the normalizer
can still change after the substitution table has folded the Azerbaijani
letters (ASCII case folding). -/
def jsToLower (c : Char) : Char :=
  if 65 ≤ c.toNat ∧ c.toNat ≤ 90 then Char.ofNat (c.toNat + 32) else c

/-- Is `c` kept by `replace(/[^a-z0-9\s]/g, ' ')`? -/
def keptBySanitize (c : Char) : Bool :=
  (97 ≤ c.toNat && c.toNat ≤ 122) || (48 ≤ c.toNat && c.toNat ≤ 57) || jsIsWs c

def sanitizeChar (c : Char) : Char := if keptBySanitize c then c else ' '

/-- `replace(/\s+/g, ' ')`: each whitespace run becomes one space.  The
flag records whether the previous character was part of a run already
replaced. -/
def collapseWsAux (prevWs : Bool) : List Char → List Char
  | [] => []
  | c :: rest =>
    if jsIsWs c then
      if prevWs then collapseWsAux true rest
      else ' ' :: collapseWsAux true rest
    else c :: collapseWsAux false rest

/-- `normalizeFormKey` (src/index.js:384-393) on characters. -/
def normalizeFormKeyChars (cs : List Char) : List Char :=
  trimChars (collapseWsAux false (((cs.map azRep).map jsToLower).map sanitizeChar))

/-- `normalizeFormKey` (src/index.js:384-393). -/
def normalizeFormKey (key : String) : String :=
  String.mk (normalizeFormKeyChars key.data)

/-- `DEBT_FORM_KEY_ALIASES` (src/index.js:151-175). -/
def DEBT_FORM_KEY_ALIASES : List (String × String) :=
  [("ad", "customer_name"), ("soyad", "customer_name"),
   ("musteri adi", "customer_name"), ("musteri", "customer_name"),
   ("kreditin meblegi", "loan_amount"), ("kredit meblegi", "loan_amount"),
   ("kredit", "loan_amount"), ("mebleg", "loan_amount"),
   ("kreditin muddeti", "loan_term"), ("muddet", "loan_term"),
   ("odenis tarixi", "payment_date"), ("odenis gunu", "payment_date"),
   ("tarix", "payment_date"),
   ("qaliq borcun meblegi", "outstanding_amount"), ("qaliq borc", "outstanding_amount"),
   ("borc meblegi", "outstanding_amount"), ("qaliq", "outstanding_amount"),
   ("kredit muqavilesi", "contract_number"), ("muqavile nomresi", "contract_number"),
   ("muqavile", "contract_number"), ("contract", "contract_number"),
   ("qeyd", "note"), ("note", "note")]

/-- Separator characters of the line pattern `/^([^:=\-]+)\s*[:=\-]\s*(.*)$/`. -/
def isFormSep (c : Char) : Bool := c = ':' || c = '=' || c = '-'

/-- Match of one (already trimmed) line against
`/^([^:=\-]+)\s*[:=\-]\s*(.*)$/` (src/index.js:407): the label runs to the
first separator character and must be non-empty; the value is the rest of
the line with the whitespace right after the separator stripped by `\s*`. -/
def lineMatch (line : String) : Option (String × String) :=
  match line.data.findIdx? isFormSep with
  | none => none
  | some 0 => none
  | some i =>
    some (String.mk (line.data.take i), String.mk ((line.data.drop (i + 1)).dropWhile jsIsWs))

/-- In-place property assignment `obj[k] = v`: an existing key keeps its
position, a new key is appended. -/
def setKey : List (String × α) → String → α → List (String × α)
  | [], k, v => [(k, v)]
  | (k', v') :: rest, k, v =>
    if k' = k then (k, v) :: rest else (k', v') :: setKey rest k v

/-- State of the line loop in `parseDebtDetailsForm` (src/index.js:401-422). -/
structure FormAcc where
  collected : List (String × String)
  currentKey : Option String

/-- One iteration of the line loop (src/index.js:404-422). -/
def formStep (st : FormAcc) (rawLine : String) : FormAcc :=
  let line := jsTrim rawLine
  if line = "" then st
  else match lineMatch line with
    | some (k1, v) =>
      let normalizedKey := normalizeFormKey k1
      if normalizedKey = "" then { st with currentKey := none }
      else { collected := setKey st.collected normalizedKey (jsTrim v), currentKey := some normalizedKey }
    | none =>
      match st.currentKey with
      | none => st
      | some ck =>
        let newVal :=
          match List.lookup ck st.collected with
          | some existing => if existing ≠ "" then jsTrim (existing ++ " " ++ line) else line
          | none => line
        { collected := setKey st.collected ck newVal, currentKey := some ck }

/-- Alias resolution and empty-value dropping (src/index.js:424-430). -/
def formMapEntry (m : List (String × String)) (kv : String × String) : List (String × String) :=
  let cleanedValue := jsTrim kv.2
  if cleanedValue = "" then m
  else setKey m ((List.lookup kv.1 DEBT_FORM_KEY_ALIASES).getD kv.1) cleanedValue

/-- `String.prototype.split` on a single newline character. -/
def splitNlGo (acc : List Char) : List Char → List String
  | [] => [String.mk acc.reverse]
  | c :: rest =>
    if c = '\n' then String.mk acc.reverse :: splitNlGo [] rest
    else splitNlGo (c :: acc) rest

/-- The line split of `parseDebtDetailsForm` (src/index.js:397-400):
`;`/`|` and `\r` become newlines, then split on `\n`. -/
def formLines (text : String) : List String :=
  splitNlGo [] (text.data.map fun c => if c = ';' ∨ c = '|' ∨ c = '\r' then '\n' else c)

/-- `if (x) m.k = x` on a possibly-undefined destructured component. -/
def addIfTruthy (m : List (String × String)) (k : String) : Option String → List (String × String)
  | none => m
  | some s => if s = "" then m else setKey m k s

/-- The destructuring and conditional assignments of the positional
fallback (src/index.js:436-445), on the non-empty trimmed lines. -/
def formPositionalCore (simpleLines : List String) : List (String × String) :=
  if 5 ≤ simpleLines.length then
    let rest := simpleLines.drop 6
    let m := addIfTruthy [] "customer_name" (simpleLines.get? 0)
    let m := addIfTruthy m "loan_amount" (simpleLines.get? 1)
    let m := addIfTruthy m "loan_term" (simpleLines.get? 2)
    let m := addIfTruthy m "payment_date" (simpleLines.get? 3)
    let m := addIfTruthy m "outstanding_amount" (simpleLines.get? 4)
    let m := addIfTruthy m "contract_number" (simpleLines.get? 5)
    if rest.isEmpty then m else setKey m "note" (joinStr " " rest)
  else []

/-- The positional fallback (src/index.js:432-446), given the split lines. -/
def formPositional (lines : List String) : List (String × String) :=
  formPositionalCore ((lines.map jsTrim).filter (· ≠ ""))

/-- `parseDebtDetailsForm` (src/index.js:395-448). -/
def parseDebtDetailsForm (text : String) : List (String × String) :=
  if text = "" then []
  else
    let lines := formLines text
    let st := lines.foldl formStep ⟨[], none⟩
    let mapped := st.collected.foldl formMapEntry []
    if mapped.isEmpty then formPositional lines else mapped

/-- The character class `[:#\s-]` between the request-id label and the id. -/
def isIdSep (c : Char) : Bool := c = ':' || c = '#' || jsIsWs c || c = '-'

/-- The id-token class `[0-9a-fA-F-]`. -/
def isIdChar (c : Char) : Bool :=
  (48 ≤ c.toNat && c.toNat ≤ 57) || (97 ≤ c.toNat && c.toNat ≤ 102) ||
  (65 ≤ c.toNat && c.toNat ≤ 70) || c = '-'

/-- Case-insensitive ASCII comparison of a literal pattern word with the
start of the input; returns the remainder on success. -/
def ciWord (pat : List Char) (cs : List Char) : Option (List Char) :=
  match pat, cs with
  | [], rest => some rest
  | _ :: _, [] => none
  | p :: ps, c :: rest => if jsToLower c = jsToLower p then ciWord ps rest else none

/-- The label alternation `(sor[uğ]u\s*id|request\s*id|req\s*id)/i` of
`REQUEST_ID_REGEX` (src/index.js:177), anchored at the current position;
alternatives are tried left to right. -/
def matchReqIdLabel (cs : List Char) : Option (List Char) :=
  (match ciWord "sor".data cs with
   | some ('u' :: rest) => ciWord "u".data rest
   | some ('U' :: rest) => ciWord "u".data rest
   | some ('ğ' :: rest) => ciWord "u".data rest
   | some ('Ğ' :: rest) => ciWord "u".data rest
   | _ => none).bind (fun rest => ciWord "id".data (rest.dropWhile jsIsWs)) |>.orElse fun _ =>
  ((ciWord "request".data cs).bind fun rest => ciWord "id".data (rest.dropWhile jsIsWs)).orElse fun _ =>
  (ciWord "req".data cs).bind fun rest => ciWord "id".data (rest.dropWhile jsIsWs)

/-- Greedy `[:#\s-]*` followed by `([0-9a-fA-F-]{6,})`, with the regex
backtracking that hands separator characters back to the id token when the
greedy run leaves fewer than six id characters: try the longest separator
run first and shorten it until the id run is long enough. -/
def pickIdToken (rest : List Char) : Nat → Option String
  | 0 =>
    let run := rest.takeWhile isIdChar
    if 6 ≤ run.length then some (String.mk run) else none
  | j + 1 =>
    let run := (rest.drop (j + 1)).takeWhile isIdChar
    if 6 ≤ run.length then some (String.mk run) else pickIdToken rest j

/-- `REQUEST_ID_REGEX` matched at one position: label, separators, id. -/
def matchReqIdAt (cs : List Char) : Option String :=
  (matchReqIdLabel cs).bind fun rest =>
    pickIdToken rest (rest.takeWhile isIdSep).length

/-- Exactly `n` hex characters (`[0-9a-f]` with the `i` flag). -/
def takeHexN : Nat → List Char → Option (List Char)
  | 0, cs => some cs
  | n + 1, c :: cs =>
    if (48 ≤ c.toNat && c.toNat ≤ 57) || (97 ≤ c.toNat && c.toNat ≤ 102) ||
       (65 ≤ c.toNat && c.toNat ≤ 70) then takeHexN n cs else none
  | _ + 1, [] => none

/-- `UUID_REGEX` (src/index.js:178) matched at one position. -/
def matchUuidAt (cs : List Char) : Option String :=
  (takeHexN 8 cs).bind fun r1 =>
    match r1 with
    | '-' :: r1' => (takeHexN 4 r1').bind fun r2 =>
        match r2 with
        | '-' :: r2' => (takeHexN 4 r2').bind fun r3 =>
            match r3 with
            | '-' :: r3' => (takeHexN 4 r3').bind fun r4 =>
                match r4 with
                | '-' :: r4' => (takeHexN 12 r4').map fun r5 =>
                    String.mk (cs.take (cs.length - r5.length))
                | _ => none
            | _ => none
        | _ => none
    | _ => none

/-- Regex search: try the pattern at each start position, left to right. -/
def scanMatch (f : List Char → Option String) : List Char → Option String
  | [] => f []
  | c :: rest => (f (c :: rest)).orElse fun _ => scanMatch f rest

/-- `extractRequestIdFromText` (src/index.js:450-457): the tagged pattern
first, then a bare UUID anywhere. -/
def extractRequestIdFromText (text : String) : Option String :=
  if text = "" then none
  else match scanMatch matchReqIdAt text.data with
    | some id => some id
    | none => scanMatch matchUuidAt text.data

structure SubmitCmd where
  command : String
  requestId : String
  body : String

/-- `parseSubmitCommand` (src/index.js:459-467):
`/^\/(submit|fill|borc)\s+([^\s]+)([\s\S]*)$/i`. -/
def parseSubmitCommand (text : String) : Option SubmitCmd :=
  match text.data with
  | '/' :: rest =>
    (match (ciWord "submit".data rest).map ("submit", rest.take 6, ·) with
     | some r => some r
     | none =>
       match (ciWord "fill".data rest).map ("fill", rest.take 4, ·) with
       | some r => some r
       | none => (ciWord "borc".data rest).map ("borc", rest.take 4, ·)).bind
      fun (_, cmdChars, rest2) =>
        let wsRun := rest2.takeWhile jsIsWs
        if wsRun.isEmpty then none
        else
          let rest3 := rest2.dropWhile jsIsWs
          let tok := rest3.takeWhile fun c => ¬ jsIsWs c
          if tok.isEmpty then none
          else some ⟨String.mk cmdChars, String.mk tok, jsTrim (String.mk (rest3.drop tok.length))⟩
  | _ => none

/-- `buildDebtTemplate` (src/index.js:469-481). -/
def buildDebtTemplate (requestId : Option String) : String :=
  let idLine := match requestId with
    | some r => if r ≠ "" then ["Sorğu ID: " ++ r] else []
    | none => []
  joinStr "\n" (idLine ++
    ["ad: ", "kreditin məbləği: ", "kreditin müddəti: ", "ödəniş tarixi: ",
     "qaliq borcun məbləği: ", "kredit müqaviləsi: ",
     "", "Qısa format nümunəsi:",
     "ad=Məmmədov Ceyhun; kredit=70 ₼; muddet=10 gün; tarix=11.03.2024; qaliq=147 ₼; muqavile=№A2403010000736025329"])

/-- `isAuthorizedChat` (src/index.js:483-486): `PRIMARY_CHAT_ID` is the
configured operator chat (absent when unconfigured); a missing chat id is
rejected; otherwise `String(chatId) === PRIMARY_CHAT_ID`. -/
def isAuthorizedChat (primaryChatId : Option String) (chatId : Option Int) : Bool :=
  match primaryChatId, chatId with
  | none, _ => false
  | some _, none => false
  | some p, some c => toString c == p

structure TgUser where
  username : Option String
  first_name : Option String
  last_name : Option String

/-- `formatAuthor` (src/index.js:488-493). -/
def formatAuthor («from» : Option TgUser) : Option String :=
  match «from» with
  | none => none
  | some u =>
    match u.username with
    | some un =>
      if un ≠ "" then some ("@" ++ un)
      else
        let name := jsTrim (joinStr " " (([u.first_name, u.last_name].filterMap id).filter (· ≠ "")))
        if name = "" then none else some name
    | none =>
      let name := jsTrim (joinStr " " (([u.first_name, u.last_name].filterMap id).filter (· ≠ "")))
      if name = "" then none else some name

/-- `{...a, ...b}` object spread: keys of `a` keep their position with
values overridden by `b`; keys only in `b` are appended in `b`'s order. -/
def jsSpread (a b : Row) : Row :=
  (a.map fun p => (p.1, (List.lookup p.1 b).getD p.2)) ++
    b.filter fun p => (List.lookup p.1 a).isNone

/-- The row selected by `applyDebtDetailsSubmission`'s fetch
(src/index.js:503-507): `select('id, details, status, admin_actor')`. -/
structure DebtRecord where
  id : JVal
  details : JVal
  status : JVal
  admin_actor : JVal

/-- The payload of the store `update` call (src/index.js:518-527). -/
structure UpdateCall where
  requestId : String
  details : Row
  status : String
  resolved_at : String
  updated_at : String
  admin_actor : JVal

/-- The Record Store collaborator, as the reconciliation sees it: the
result of the fetch-by-id, and the error (if any) the update reports.  A
failed or empty fetch are both `none` (`fetchError || !existing`). -/
structure StoreModel where
  fetch : String → Option DebtRecord
  updateError : Option String

/-- `author || existing.admin_actor || null` (src/index.js:525). -/
def adminActorOf (author : Option String) (existing : DebtRecord) : JVal :=
  match author with
  | some a =>
    if a ≠ "" then .vStr a
    else if truthy existing.admin_actor then existing.admin_actor else .vNull
  | none => if truthy existing.admin_actor then existing.admin_actor else .vNull

/-- `applyDebtDetailsSubmission` (src/index.js:495-532): returns the update
calls issued to the store together with the outcome (`throw` is the
`Except.error` case, carrying the thrown message). -/
def applyDebtDetailsSubmission (store : StoreModel) (now : String) (requestId : String)
    (parsedDetails : List (String × String)) (author : Option String) :
    List UpdateCall × Except String Unit :=
  if requestId = "" then ([], .error "Sorğu ID tələb olunur")
  else if parsedDetails.isEmpty then ([], .error "Məlumat tapılmadı")
  else match store.fetch requestId with
    | none => ([], .error "Sorğu tapılmadı")
    | some existing =>
      let mergedDetails := jsSpread ((coerceDebtDetails (some existing.details)).getD [])
        (parsedDetails.map fun p => (p.1, JVal.vStr p.2))
      let call : UpdateCall :=
        ⟨requestId, mergedDetails, "completed", now, now, adminActorOf author existing⟩
      match store.updateError with
      | some msg => ([call], .error (if msg = "" then "Yeniləmə mümkün olmadı" else msg))
      | none => ([call], .ok ())

structure TgChat where
  id : Int

structure TgReply where
  text : Option String

structure TgMessage where
  chat : Option TgChat
  text : Option String
  message_id : Int
  reply_to_message : Option TgReply
  «from» : Option TgUser

structure TgUpdate where
  message : Option TgMessage
  edited_message : Option TgMessage

/-- One outbound `sendToTelegram` call issued by the handler. -/
structure SendCall where
  text : String
  chatId : Option Int
  replyToMessageId : Option Int

/-- The operator-chat configuration (`PRIMARY_CHAT_ID`). -/
structure Config where
  primaryChatId : Option String

/-- `update.message || update.edited_message` (src/index.js:535). -/
def updateMessage (u : TgUpdate) : Option TgMessage :=
  match u.message with
  | some m => some m
  | none => u.edited_message

/-- `TELEGRAM_HELP_TEXT` (src/index.js:180-198). -/
def TELEGRAM_HELP_TEXT : String :=
  joinStr "\n"
    ["Sorğunu yeniləmək üçün iki seçim var:",
     "• Botun göndərdiyi mesaja cavab yazın və məlumatları eyni mesajda paylaşın;",
     "• və ya /submit <sorğu-id> yazıb ardınca məlumatları əlavə edin.",
     "",
     "3 forma dəstəklənir:",
     "1) Qısa açarlar: ad=..., kredit=..., muddet=..., tarix=..., qaliq=..., muqavile=...;",
     "2) Klassik format: \"ad: ...\" sətirlərini yazın;",
     "3) Ən sadə şablon: 6 sətir ardıcıl göndərin → ad, məbləğ, müddət, tarix, qalıq, müqavilə (əlavə qeydlər varsa yeni sətirə).",
     "",
     "Ayrıcı olaraq ; və ya yeni sətr istifadə etmək olar.",
     "",
     "Nümunə:",
     "Məmmədov Ceyhun\n70 ₼\n10 gün\n11.03.2024\n147 ₼\n№A2403010000736025329\n",
     "və ya",
     "ad=Məmmədov Ceyhun; kredit=70 ₼; muddet=10 gün; tarix=11.03.2024; qaliq=147 ₼; muqavile=№A2403010000736025329",
     "",
     "Tez şablon lazımdırsa /template <sorğu-id> yazın."]

/-- The guidance reply when no request id could be resolved
(src/index.js:571). -/
def NO_ID_GUIDANCE : String :=
  "Sorğu ID tapılmadı. /submit <sorğu-id> istifadə edin və ya botun mesajına cavab verin."

/-- The guidance reply when the payload is empty (src/index.js:579). -/
def NO_PAYLOAD_GUIDANCE : String :=
  "Məlumat blokunu eyni mesajda paylaşın. /template əmri ilə tez şablon ala bilərsiniz."

/-- The guidance reply when the payload parses to nothing (src/index.js:588). -/
def PARSE_FAIL_GUIDANCE : String :=
  "Məlumatı oxumaq alınmadı. \"ad=...; kredit=...\" formatından istifadə edin və ya /template əmrindən yararlanın."

mutual
/-- JS `String.prototype.split(/\s+/)` (used with limit 2 for `/template`):
tokens between whitespace runs, with an empty leading/trailing token when
the string starts/ends with whitespace. -/
def splitWsGo (acc : List Char) : List Char → List String
  | [] => [String.mk acc.reverse]
  | c :: rest =>
    if jsIsWs c then String.mk acc.reverse :: splitWsSkip rest
    else splitWsGo (c :: acc) rest

def splitWsSkip : List Char → List String
  | [] => [""]
  | c :: rest =>
    if jsIsWs c then splitWsSkip rest
    else splitWsGo [c] rest
end

def jsSplitWs (s : String) : List String := splitWsGo [] s.data

/-- `String.prototype.startsWith`. -/
def jsStartsWith (s pre : String) : Bool := pre.data.isPrefixOf s.data

/-- `handleTelegramUpdate` (src/index.js:534-609): returns the outbound
`sendToTelegram` calls and the store update calls it performs, in order. -/
def handleTelegramUpdate (cfg : Config) (store : StoreModel) (now : String)
    (update : TgUpdate) : List SendCall × List UpdateCall :=
  match updateMessage update with
  | none => ([], [])
  | some message =>
    let chatId := message.chat.map TgChat.id
    if ¬ isAuthorizedChat cfg.primaryChatId chatId then ([], [])
    else
      let text := jsTrim (message.text.getD "")
      if text = "" then ([], [])
      else if jsStartsWith text "/start" || jsStartsWith text "/help" then
        ([⟨TELEGRAM_HELP_TEXT, chatId, some message.message_id⟩], [])
      else if jsStartsWith text "/template" then
        let reqIdRaw := ((jsSplitWs text).take 2).get? 1
        ([⟨buildDebtTemplate (reqIdRaw.map jsTrim), chatId, some message.message_id⟩], [])
      else
        let command := parseSubmitCommand text
        let requestId0 : Option String := command.map SubmitCmd.requestId
        let payload0 : String := (command.map SubmitCmd.body).getD ""
        let resolved : Option String × String :=
          match requestId0, message.reply_to_message with
          | none, some reply =>
            (extractRequestIdFromText (reply.text.getD ""),
             if payload0 = "" then text else payload0)
          | r, _ => (r, payload0)
        match resolved.1 with
        | none => ([⟨NO_ID_GUIDANCE, chatId, some message.message_id⟩], [])
        | some requestId =>
          if resolved.2 = "" then
            ([⟨NO_PAYLOAD_GUIDANCE, chatId, some message.message_id⟩], [])
          else
            let parsed := parseDebtDetailsForm resolved.2
            if parsed.isEmpty then
              ([⟨PARSE_FAIL_GUIDANCE, chatId, some message.message_id⟩], [])
            else
              let author := formatAuthor message.from
              match applyDebtDetailsSubmission store now requestId parsed author with
              | (calls, .ok _) =>
                ([⟨"Sorğu <code>" ++ escapeHtml requestId ++ "</code> yeniləndi.",
                   chatId, some message.message_id⟩], calls)
              | (calls, .error e) =>
                ([⟨"Sorğunu yeniləmək mümkün olmadı: " ++
                     escapeHtml (if e = "" then "naməlum xəta" else e),
                   chatId, some message.message_id⟩], calls)

/-! ## Lemmas and claim theorems -/

/-- Dropping from a row every key absent from the display allow-list
(stated from the spec's words: "any field not on the list is dropped
before rendering"). -/
def scrubRowKeys (r : Row) : Row := r.filter fun p => ALLOWED_FIELDS.contains p.1

def scrubRow (o : Option Row) : Option Row := o.map scrubRowKeys

theorem lookup_filter_keyPred {α : Type} (p : String → Bool) (k : String) (hp : p k = true)
    (l : List (String × α)) :
    List.lookup k (l.filter fun q => p q.1) = List.lookup k l := by
  induction l with
  | nil => rfl
  | cons hd tl ih =>
    obtain ⟨k', v⟩ := hd
    by_cases hk : k' = k
    · subst hk
      simp [List.filter, hp, List.lookup]
    · have hbeq : (k == k') = false := beq_eq_false_iff_ne.mpr (Ne.symm hk)
      cases hpc : p k' <;> simp [List.filter, hpc, List.lookup, ih, hbeq]

theorem lookup_scrubKeys (r : Row) (f : String) (hf : ALLOWED_FIELDS.contains f = true) :
    List.lookup f (scrubRowKeys r) = List.lookup f r :=
  lookup_filter_keyPred _ f hf r

theorem filterAllowedFields_scrub (o : Option Row) :
    filterAllowedFields (scrubRow o) = filterAllowedFields o := by
  cases o with
  | none => rfl
  | some r =>
    simp only [filterAllowedFields, scrubRow, Option.map_some']
    apply List.filterMap_congr
    intro key hkey
    rw [lookup_scrubKeys r key (by simpa using List.elem_iff.mpr hkey)]

theorem jsOrRow_scrub (a b : Option Row) :
    jsOrRow (scrubRow a) (scrubRow b) = scrubRow (jsOrRow a b) := by
  cases a <;> rfl

theorem formatGenericChange_scrub (eventType s t : String) (rowNew rowOld : Option Row) :
    formatGenericChange eventType s t (scrubRow rowNew) (scrubRow rowOld) =
      formatGenericChange eventType s t rowNew rowOld := by
  simp only [formatGenericChange, jsOrRow_scrub, filterAllowedFields_scrub]

theorem lookup_scrub_id (r : Row) : List.lookup "id" (scrubRowKeys r) = List.lookup "id" r :=
  lookup_scrubKeys r _ (by decide)

theorem lookup_scrub_phone (r : Row) :
    List.lookup "phone_number" (scrubRowKeys r) = List.lookup "phone_number" r :=
  lookup_scrubKeys r _ (by decide)

theorem lookup_scrub_status (r : Row) :
    List.lookup "status" (scrubRowKeys r) = List.lookup "status" r :=
  lookup_scrubKeys r _ (by decide)

theorem lookup_scrub_otp (r : Row) :
    List.lookup "otp_code" (scrubRowKeys r) = List.lookup "otp_code" r :=
  lookup_scrubKeys r _ (by decide)

theorem lookup_scrub_admin (r : Row) :
    List.lookup "admin_actor" (scrubRowKeys r) = List.lookup "admin_actor" r :=
  lookup_scrubKeys r _ (by decide)

theorem lookup_scrub_details (r : Row) :
    List.lookup "details" (scrubRowKeys r) = List.lookup "details" r :=
  lookup_scrubKeys r _ (by decide)

theorem formatDebtRequestChange_scrub (eventType : String) (rowNew rowOld : Option Row) :
    formatDebtRequestChange eventType (scrubRow rowNew) (scrubRow rowOld) =
      formatDebtRequestChange eventType rowNew rowOld := by
  cases rowNew <;> cases rowOld <;>
    simp only [formatDebtRequestChange, scrubRow, Option.map_some', Option.map_none',
      Option.getD_some, Option.getD_none, lookup_scrub_id, lookup_scrub_phone,
      lookup_scrub_status, lookup_scrub_otp, lookup_scrub_admin, lookup_scrub_details]

/-- C1: for every event kind and every pair of input rows, the Change
Formatter's output is unchanged when every key absent from the display
allow-list is dropped from the rows first — so no such key can influence
(or appear in) the rendered message, on the generic path and on the
`debt_requests` path with its details block alike. -/
theorem formatChange_drops_nonallowlisted (eventType s t : String) (rowNew rowOld : Option Row) :
    formatChange eventType s t rowNew rowOld =
      formatChange eventType s t (scrubRow rowNew) (scrubRow rowOld) := by
  simp only [formatChange, formatGenericChange_scrub, formatDebtRequestChange_scrub]

theorem lookup_some_mem_keys {α : Type} {k : String} {v : α} :
    ∀ {l : List (String × α)}, List.lookup k l = some v → k ∈ l.map Prod.fst := by
  intro l
  induction l with
  | nil => intro h; simp [List.lookup] at h
  | cons hd tl ih =>
    intro h
    obtain ⟨k', v'⟩ := hd
    by_cases hk : k = k'
    · simp [hk]
    · rw [List.lookup_cons] at h
      have hbeq : (k == k') = false := beq_eq_false_iff_ne.mpr hk
      rw [hbeq] at h
      simp [ih h]

theorem mem_dedupFirstAux {a : String} :
    ∀ {l seen : List String}, a ∈ l → a ∉ seen → a ∈ dedupFirstAux seen l := by
  intro l
  induction l with
  | nil => intro seen h; simp at h
  | cons x rest ih =>
    intro seen hmem hseen
    rcases List.mem_cons.mp hmem with rfl | hrest
    · simp [dedupFirstAux, hseen]
    · by_cases hx : x ∈ seen
      · simpa [dedupFirstAux, hx] using ih hrest hseen
      · by_cases hax : a = x
        · subst hax; simp [dedupFirstAux, hx]
        · have : a ∉ x :: seen := by
            intro hc; rcases List.mem_cons.mp hc with h1 | h2
            · exact hax h1
            · exact hseen h2
          simp [dedupFirstAux, hx, List.mem_cons]
          exact Or.inr (ih hrest this)

theorem mem_dedupFirst {a : String} {l : List String} (h : a ∈ l) : a ∈ dedupFirst l :=
  mem_dedupFirstAux h (by simp)

theorem mem_sortStrings {a : String} {l : List String} (h : a ∈ l) : a ∈ sortStrings l :=
  (List.mergeSort_perm l _).mem_iff.mpr h

theorem joinStr_concat (sep x : String) :
    ∀ xs : List String, ∃ p, joinStr sep (xs ++ [x]) = p ++ x := by
  intro xs
  induction xs with
  | nil => exact ⟨"", by simp [joinStr]⟩
  | cons y rest ih =>
    obtain ⟨p, hp⟩ := ih
    cases rest with
    | nil => exact ⟨y ++ sep, by simp [joinStr]⟩
    | cons z rest' =>
      refine ⟨y ++ sep ++ p, ?_⟩
      show joinStr sep (y :: ((z :: rest') ++ [x])) = y ++ sep ++ p ++ x
      have hstep : joinStr sep (y :: ((z :: rest') ++ [x])) =
          y ++ sep ++ joinStr sep ((z :: rest') ++ [x]) := rfl
      rw [hstep, hp]
      simp [String.append_assoc]

theorem mem_changedKeysOf {k : String} {oldRow newRow : Row}
    (hne : jsonOptStr (List.lookup k oldRow) ≠ jsonOptStr (List.lookup k newRow)) :
    k ∈ changedKeysOf oldRow newRow := by
  have hmemkeys : k ∈ updateKeys oldRow newRow := by
    apply mem_sortStrings
    apply mem_dedupFirst
    rw [List.mem_append]
    cases ho : List.lookup k oldRow with
    | some v => exact Or.inl (lookup_some_mem_keys ho)
    | none =>
      cases hn : List.lookup k newRow with
      | some v => exact Or.inr (lookup_some_mem_keys hn)
      | none => rw [ho, hn] at hne; exact absurd rfl hne
  exact List.mem_filter.mpr ⟨hmemkeys, bne_iff_ne.mpr hne⟩

theorem cardNumberLine_length (oldRow newRow : Row) :
    5 ≤ (cardNumberLine oldRow newRow).length := by
  show 5 ≤ (("• <b>" : String) ++ _).length
  rw [String.length_append]
  have : ("• <b>" : String).length = 5 := by decide
  omega

/-- C4: on an update event whose allow-listed diff includes a change of the
OTP-code field, and whose (filtered) rows carry a card number, the generic
Change Formatter's output contains the card-number context line even
though the card number itself need not have changed. -/
theorem formatGenericChange_update_emits_card (s t : String) (rowNew rowOld : Option Row)
    (hotp : jsonOptStr (List.lookup "otp_code" (filterAllowedFields rowOld)) ≠
            jsonOptStr (List.lookup "otp_code" (filterAllowedFields rowNew)))
    (hcard : (truthyOpt (List.lookup "card_number" (filterAllowedFields rowNew)) ||
              truthyOpt (List.lookup "card_number" (filterAllowedFields rowOld))) = true) :
    ∃ p q, formatGenericChange "UPDATE" s t rowNew rowOld =
      p ++ cardNumberLine (filterAllowedFields rowOld) (filterAllowedFields rowNew) ++ q := by
  have hmem : "otp_code" ∈ changedKeysOf (filterAllowedFields rowOld) (filterAllowedFields rowNew) :=
    mem_changedKeysOf hotp
  have hcontains :
      (changedKeysOf (filterAllowedFields rowOld) (filterAllowedFields rowNew)).contains "otp_code" = true := by
    simpa using List.elem_iff.mpr hmem
  obtain ⟨p, hp⟩ := joinStr_concat "\n"
    (cardNumberLine (filterAllowedFields rowOld) (filterAllowedFields rowNew))
    ((changedKeysOf (filterAllowedFields rowOld) (filterAllowedFields rowNew)).map
      (updateLine (filterAllowedFields rowOld) (filterAllowedFields rowNew)))
  have hbody_ne :
      joinStr "\n"
        (((changedKeysOf (filterAllowedFields rowOld) (filterAllowedFields rowNew)).map
          (updateLine (filterAllowedFields rowOld) (filterAllowedFields rowNew))) ++
          [cardNumberLine (filterAllowedFields rowOld) (filterAllowedFields rowNew)]) ≠ "" := by
    intro hcontra
    rw [hp] at hcontra
    have hlen := congrArg String.length hcontra
    rw [String.length_append] at hlen
    have h5 := cardNumberLine_length (filterAllowedFields rowOld) (filterAllowedFields rowNew)
    simp at hlen
    omega
  have hAeq : formatGenericChange "UPDATE" s t rowNew rowOld =
      "<b>" ++ escapeHtml ((List.lookup "UPDATE" AZ_EVENT_TYPES).getD "UPDATE") ++
        "</b> - <code>" ++ escapeHtml (s ++ "." ++ t) ++ "</code>" ++ "\n<b>" ++
        azLabel "Changed" ++ "</b>\n" ++
        joinStr "\n"
          (((changedKeysOf (filterAllowedFields rowOld) (filterAllowedFields rowNew)).map
            (updateLine (filterAllowedFields rowOld) (filterAllowedFields rowNew))) ++
            [cardNumberLine (filterAllowedFields rowOld) (filterAllowedFields rowNew)]) := by
    simp only [formatGenericChange]
    rw [if_neg (show ¬ ("UPDATE" : String) = "INSERT" by decide)]
    simp only [if_true]
    rw [hcontains, hcard]
    simp only [Bool.true_and, eq_self_iff_true, if_true]
    rw [if_neg hbody_ne]
  obtain ⟨A, hA2⟩ : ∃ A, formatGenericChange "UPDATE" s t rowNew rowOld =
      A ++ joinStr "\n"
        (((changedKeysOf (filterAllowedFields rowOld) (filterAllowedFields rowNew)).map
          (updateLine (filterAllowedFields rowOld) (filterAllowedFields rowNew))) ++
          [cardNumberLine (filterAllowedFields rowOld) (filterAllowedFields rowNew)]) := ⟨_, hAeq⟩
  refine ⟨A ++ p, "", ?_⟩
  rw [hA2, hp]
  simp [String.append_assoc]

/-- C4 witness: a concrete update where only the OTP changed and the card
number is identical in both rows still renders the card-number line. -/
theorem formatGenericChange_update_emits_card_witness :
    ∃ p q, formatGenericChange "UPDATE" "public" "orders"
        (some [("otp_code", JVal.vStr "2222"), ("card_number", JVal.vStr "4111111111111111")])
        (some [("otp_code", JVal.vStr "1111"), ("card_number", JVal.vStr "4111111111111111")]) =
      p ++ cardNumberLine
        (filterAllowedFields (some [("otp_code", JVal.vStr "1111"), ("card_number", JVal.vStr "4111111111111111")]))
        (filterAllowedFields (some [("otp_code", JVal.vStr "2222"), ("card_number", JVal.vStr "4111111111111111")])) ++ q :=
  formatGenericChange_update_emits_card "public" "orders" _ _ (by decide) (by decide)

theorem joinStr_mem_decomp (sep x : String) :
    ∀ xs : List String, x ∈ xs → ∃ p q, joinStr sep xs = p ++ x ++ q := by
  intro xs
  induction xs with
  | nil => intro h; simp at h
  | cons y rest ih =>
    intro h
    rcases List.mem_cons.mp h with rfl | hrest
    · cases rest with
      | nil => exact ⟨"", "", by simp [joinStr]⟩
      | cons z r' =>
        refine ⟨"", sep ++ joinStr sep (z :: r'), ?_⟩
        show x ++ sep ++ joinStr sep (z :: r') = "" ++ x ++ (sep ++ joinStr sep (z :: r'))
        simp [String.append_assoc]
    · cases rest with
      | nil => simp at hrest
      | cons z r' =>
        obtain ⟨p, q, hpq⟩ := ih hrest
        refine ⟨y ++ sep ++ p, q, ?_⟩
        show y ++ sep ++ joinStr sep (z :: r') = y ++ sep ++ p ++ x ++ q
        rw [hpq]
        simp [String.append_assoc]

/-- C10: `maskSensitiveRow` is dead code on the formatting paths — an
insert on a generic (non-`debt_requests`) table renders a string-valued
`card_number`, `cvc`, or `otp_code` in full, HTML-escaped only, with no
masking. -/
theorem formatChange_insert_renders_sensitive_unmasked (s t k v : String) (r : Row)
    (rowOld : Option Row) (ht : t ≠ "debt_requests")
    (hk : k = "card_number" ∨ k = "cvc" ∨ k = "otp_code")
    (hl : List.lookup k r = some (JVal.vStr v)) :
    ∃ p q, formatChange "INSERT" s t (some r) rowOld = p ++ escapeHtml v ++ q := by
  have hkmem : k ∈ ALLOWED_FIELDS := by
    rcases hk with rfl | rfl | rfl <;> decide
  have hmem : (k, JVal.vStr v) ∈ filterAllowedFields (some r) := by
    simp only [filterAllowedFields]
    exact List.mem_filterMap.mpr ⟨k, hkmem, by rw [hl]; rfl⟩
  have hline : renderListLine k (JVal.vStr v) ∈
      (filterAllowedFields (some r)).map fun p => renderListLine p.1 p.2 :=
    List.mem_map.mpr ⟨(k, JVal.vStr v), hmem, rfl⟩
  obtain ⟨p, q, hpq⟩ := joinStr_mem_decomp "\n" (renderListLine k (JVal.vStr v)) _ hline
  have hAeq : formatChange "INSERT" s t (some r) rowOld =
      "<b>" ++ escapeHtml ((List.lookup "INSERT" AZ_EVENT_TYPES).getD "INSERT") ++
        "</b> - <code>" ++ escapeHtml (s ++ "." ++ t) ++ "</code>" ++ "\n<b>" ++
        azLabel "New" ++ "</b>\n" ++ renderList (filterAllowedFields (some r)) := by
    simp only [formatChange]
    rw [if_neg ht]
    simp only [formatGenericChange, if_true]
  obtain ⟨A, hA⟩ : ∃ A, formatChange "INSERT" s t (some r) rowOld =
      A ++ renderList (filterAllowedFields (some r)) := ⟨_, hAeq⟩
  have hlineEq : renderListLine k (JVal.vStr v) =
      "• <b>" ++ escapeHtml (azFieldLabel k) ++ "</b>: <code>" ++ escapeHtml v ++ "</code>" := rfl
  refine ⟨A ++ p ++ ("• <b>" ++ escapeHtml (azFieldLabel k) ++ "</b>: <code>"),
          "</code>" ++ q, ?_⟩
  rw [hA, renderList, hpq, hlineEq]
  simp [String.append_assoc]

/-- C10 witness: a concrete insert on a generic table shows the full card
number, CVC and OTP values (here the card number) HTML-escaped only. -/
theorem formatChange_insert_renders_sensitive_unmasked_witness :
    ∃ p q, formatChange "INSERT" "public" "payments"
        (some [("card_number", JVal.vStr "4111111111111111"), ("cvc", JVal.vStr "123")]) none =
      p ++ escapeHtml "4111111111111111" ++ q :=
  formatChange_insert_renders_sensitive_unmasked "public" "payments" "card_number"
    "4111111111111111" _ none (by decide) (Or.inl rfl) (by rfl)

theorem lookup_filter_keyPred_false {α : Type} (p : String → Bool) (k : String)
    (hp : p k = false) (l : List (String × α)) :
    List.lookup k (l.filter fun q => p q.1) = none := by
  induction l with
  | nil => rfl
  | cons hd tl ih =>
    obtain ⟨k', v⟩ := hd
    by_cases hk : k' = k
    · subst hk; simp [List.filter, hp, ih]
    · have hbeq : (k == k') = false := beq_eq_false_iff_ne.mpr (Ne.symm hk)
      cases hpc : p k' <;> simp [List.filter, hpc, List.lookup, hbeq, ih]

theorem lookup_append {α : Type} (k : String) (xs ys : List (String × α)) :
    List.lookup k (xs ++ ys) =
      match List.lookup k xs with
      | some v => some v
      | none => List.lookup k ys := by
  induction xs with
  | nil => simp [List.lookup]
  | cons hd tl ih =>
    obtain ⟨k', v⟩ := hd
    cases hbeq : (k == k') <;> simp [List.lookup, hbeq, ih]

theorem lookup_map_override (a b : Row) (k : String) :
    List.lookup k (a.map fun p => (p.1, (List.lookup p.1 b).getD p.2)) =
      (List.lookup k a).map fun v => (List.lookup k b).getD v := by
  induction a with
  | nil => rfl
  | cons hd tl ih =>
    obtain ⟨k', v⟩ := hd
    by_cases hk : k = k'
    · subst hk; simp [List.lookup]
    · have hbeq : (k == k') = false := beq_eq_false_iff_ne.mpr hk
      simp [List.lookup, hbeq, ih]

theorem lookup_map_val {α β : Type} (f : α → β) (k : String) :
    ∀ l : List (String × α),
      List.lookup k (l.map fun p => (p.1, f p.2)) = (List.lookup k l).map f := by
  intro l
  induction l with
  | nil => rfl
  | cons hd tl ih =>
    obtain ⟨k', v⟩ := hd
    cases hbeq : (k == k') <;> simp [List.lookup, hbeq, ih]

theorem jsSpread_lookup (a b : Row) (k : String) :
    List.lookup k (jsSpread a b) =
      match List.lookup k b with
      | some vb => some vb
      | none => List.lookup k a := by
  rw [jsSpread, lookup_append, lookup_map_override]
  cases ha : List.lookup k a with
  | some va =>
    have hfalse : ((List.lookup k a).isNone : Bool) = false := by rw [ha]; rfl
    rw [lookup_filter_keyPred_false (fun key => (List.lookup key a).isNone) k hfalse b]
    cases hb : List.lookup k b <;> simp
  | none =>
    have htrue : ((List.lookup k a).isNone : Bool) = true := by rw [ha]; rfl
    rw [lookup_filter_keyPred (fun key => (List.lookup key a).isNone) k htrue b]
    cases hb : List.lookup k b <;> simp

/-- C3: reconciling a request id whose fetch finds no Record (not found or
fetch failure) fails with the not-found reason (`Sorğu tapılmadı`) and
issues no update call to the store. -/
theorem applyDebtDetailsSubmission_not_found (store : StoreModel) (now rid : String)
    (parsed : List (String × String)) (author : Option String)
    (hrid : rid ≠ "") (hparsed : parsed ≠ [])
    (hfetch : store.fetch rid = none) :
    applyDebtDetailsSubmission store now rid parsed author = ([], .error "Sorğu tapılmadı") := by
  have hempty : parsed.isEmpty = false := by
    cases parsed with
    | nil => exact absurd rfl hparsed
    | cons _ _ => rfl
  simp only [applyDebtDetailsSubmission, if_neg hrid, hempty, hfetch]
  rfl

/-- C3 witness: a concrete absent id yields the not-found failure and an
empty update-call trace. -/
theorem applyDebtDetailsSubmission_not_found_witness :
    applyDebtDetailsSubmission ⟨fun _ => none, none⟩ "NOW" "abc123"
        [("customer_name", "X")] (some "@op") = ([], .error "Sorğu tapılmadı") :=
  applyDebtDetailsSubmission_not_found _ "NOW" "abc123" _ (some "@op")
    (by decide) (by decide) rfl

/-- C5: the reconciliation merge is a shallow per-key overwrite — the
update call's `details` holds the ParsedForm's value for every key the
ParsedForm defines and the existing decoded details' value for every other
key. -/
theorem applyDebtDetailsSubmission_merge_shallow (store : StoreModel) (now rid : String)
    (parsed : List (String × String)) (author : Option String) (rec : DebtRecord) (k : String)
    (hrid : rid ≠ "") (hparsed : parsed ≠ [])
    (hfetch : store.fetch rid = some rec) :
    ∃ call : UpdateCall,
      (applyDebtDetailsSubmission store now rid parsed author).1 = [call] ∧
      List.lookup k call.details =
        (match List.lookup k parsed with
         | some v => some (JVal.vStr v)
         | none => List.lookup k ((coerceDebtDetails (some rec.details)).getD [])) := by
  have hempty : parsed.isEmpty = false := by
    cases parsed with
    | nil => exact absurd rfl hparsed
    | cons _ _ => rfl
  have hlook :
      List.lookup k (jsSpread ((coerceDebtDetails (some rec.details)).getD [])
        (parsed.map fun p => (p.1, JVal.vStr p.2))) =
      (match List.lookup k parsed with
       | some v => some (JVal.vStr v)
       | none => List.lookup k ((coerceDebtDetails (some rec.details)).getD [])) := by
    rw [jsSpread_lookup, lookup_map_val]
    cases List.lookup k parsed <;> rfl
  refine ⟨⟨rid, jsSpread ((coerceDebtDetails (some rec.details)).getD [])
      (parsed.map fun p => (p.1, JVal.vStr p.2)), "completed", now, now,
      adminActorOf author rec⟩, ?_, hlook⟩
  cases hue : store.updateError with
  | none =>
    simp only [applyDebtDetailsSubmission, if_neg hrid, hempty, hfetch, hue]
    rfl
  | some msg =>
    simp only [applyDebtDetailsSubmission, if_neg hrid, hempty, hfetch, hue]
    rfl

/-- C5 witness: with an existing map `{customer_name: Old, extra: keep}`
and a ParsedForm `{customer_name: Yeni}`, the merged details take the new
`customer_name` while an untouched key keeps its old value. -/
theorem applyDebtDetailsSubmission_merge_shallow_witness :
    (∃ call : UpdateCall,
      (applyDebtDetailsSubmission
        ⟨fun _ => some ⟨JVal.vStr "id1",
          JVal.vObj [("customer_name", JVal.vStr "Old"), ("extra", JVal.vStr "keep")],
          JVal.vStr "awaiting_admin", JVal.vNull⟩, none⟩
        "NOW" "abc123" [("customer_name", "Yeni")] (some "@op")).1 = [call] ∧
      List.lookup "extra" call.details =
        (match List.lookup "extra" [("customer_name", "Yeni")] with
         | some v => some (JVal.vStr v)
         | none => List.lookup "extra"
             ((coerceDebtDetails (some (JVal.vObj
               [("customer_name", JVal.vStr "Old"), ("extra", JVal.vStr "keep")]))).getD []))) :=
  applyDebtDetailsSubmission_merge_shallow
    ⟨fun _ => some ⟨JVal.vStr "id1",
      JVal.vObj [("customer_name", JVal.vStr "Old"), ("extra", JVal.vStr "keep")],
      JVal.vStr "awaiting_admin", JVal.vNull⟩, none⟩
    "NOW" "abc123" [("customer_name", "Yeni")] (some "@op")
    ⟨JVal.vStr "id1",
      JVal.vObj [("customer_name", JVal.vStr "Old"), ("extra", JVal.vStr "keep")],
      JVal.vStr "awaiting_admin", JVal.vNull⟩ "extra"
    (by decide) (by decide) rfl

/-- C2: an inbound update whose message comes from a chat id different
from the configured operator chat produces no outbound send and no store
update, whatever the text (including `/help`). -/
theorem handleTelegramUpdate_unauthorized_silent (cfg : Config) (store : StoreModel)
    (now : String) (update : TgUpdate) (m : TgMessage) (p : String) (ch : TgChat)
    (hp : cfg.primaryChatId = some p)
    (hm : updateMessage update = some m)
    (hchat : m.chat = some ch)
    (hne : toString ch.id ≠ p) :
    handleTelegramUpdate cfg store now update = ([], []) := by
  have hauth : isAuthorizedChat cfg.primaryChatId (m.chat.map TgChat.id) = false := by
    rw [hp, hchat]
    show (toString ch.id == p) = false
    exact beq_eq_false_iff_ne.mpr hne
  simp [handleTelegramUpdate, hm, hauth]

/-- C2 witness: chat id 7 sending `/help` while the operator chat is 42
produces zero outbound messages. -/
theorem handleTelegramUpdate_unauthorized_silent_witness :
    handleTelegramUpdate ⟨some "42"⟩ ⟨fun _ => none, none⟩ "NOW"
      ⟨some ⟨some ⟨7⟩, some "/help", 1, none, none⟩, none⟩ = ([], []) :=
  handleTelegramUpdate_unauthorized_silent ⟨some "42"⟩ ⟨fun _ => none, none⟩ "NOW"
    ⟨some ⟨some ⟨7⟩, some "/help", 1, none, none⟩, none⟩
    ⟨some ⟨7⟩, some "/help", 1, none, none⟩ "42" ⟨7⟩ rfl rfl rfl (by decide)

/-- C6 counterexample: an authorized message whose text is whitespace only
has no resolvable request id (no submit command, no reply), yet the
handler sends nothing at all — a silent drop, not a guidance reply. -/
theorem handleTelegramUpdate_guidance_counterexample :
    updateMessage ⟨some ⟨some ⟨42⟩, some "   ", 1, none, none⟩, none⟩ =
      some ⟨some ⟨42⟩, some "   ", 1, none, none⟩ ∧
    isAuthorizedChat (some "42") (some 42) = true ∧
    parseSubmitCommand (jsTrim "   ") = none ∧
    handleTelegramUpdate ⟨some "42"⟩ ⟨fun _ => none, none⟩ "NOW"
      ⟨some ⟨some ⟨42⟩, some "   ", 1, none, none⟩, none⟩ = ([], []) :=
  ⟨rfl, rfl, rfl, rfl⟩

/-- C6 (amended): an authorized message with non-empty trimmed text that
triggers neither the help nor the template command, matches no
explicit-submit pattern, and yields no id from a replied-to message, is
answered with the no-id guidance reply rather than dropped. -/
theorem handleTelegramUpdate_no_id_guidance (cfg : Config) (store : StoreModel)
    (now : String) (update : TgUpdate) (m : TgMessage) (p : String) (ch : TgChat)
    (hp : cfg.primaryChatId = some p)
    (hm : updateMessage update = some m)
    (hchat : m.chat = some ch)
    (hid : toString ch.id = p)
    (htext : jsTrim (m.text.getD "") ≠ "")
    (hstart : jsStartsWith (jsTrim (m.text.getD "")) "/start" = false)
    (hhelp : jsStartsWith (jsTrim (m.text.getD "")) "/help" = false)
    (htmpl : jsStartsWith (jsTrim (m.text.getD "")) "/template" = false)
    (hcmd : parseSubmitCommand (jsTrim (m.text.getD "")) = none)
    (hreply : ∀ r, m.reply_to_message = some r → extractRequestIdFromText (r.text.getD "") = none) :
    handleTelegramUpdate cfg store now update =
      ([⟨NO_ID_GUIDANCE, some ch.id, some m.message_id⟩], []) := by
  have hauth : isAuthorizedChat cfg.primaryChatId (some ch.id) = true := by
    rw [hp]
    show (toString ch.id == p) = true
    exact beq_iff_eq.mpr hid
  simp only [handleTelegramUpdate, hm, hchat, Option.map_some', hauth, eq_self_iff_true,
    not_true, if_false, htext, hstart, hhelp, htmpl, hcmd, Bool.or_self, Bool.false_eq_true,
    Option.map_none', Option.getD_none]
  cases hr : m.reply_to_message with
  | none => rfl
  | some r => simp [hreply r hr]

/-- C6 (amended) witness: a plain-text authorized message with no id gets
the guidance reply. -/
theorem handleTelegramUpdate_no_id_guidance_witness :
    handleTelegramUpdate ⟨some "42"⟩ ⟨fun _ => none, none⟩ "NOW"
      ⟨some ⟨some ⟨42⟩, some "salam dunya", 1, none, none⟩, none⟩ =
      ([⟨NO_ID_GUIDANCE, some 42, some 1⟩], []) :=
  handleTelegramUpdate_no_id_guidance ⟨some "42"⟩ ⟨fun _ => none, none⟩ "NOW"
    ⟨some ⟨some ⟨42⟩, some "salam dunya", 1, none, none⟩, none⟩
    ⟨some ⟨42⟩, some "salam dunya", 1, none, none⟩ "42" ⟨42⟩
    rfl rfl rfl rfl (by decide) (by decide) (by decide) (by decide) rfl
    (fun r hr => by simp at hr)

/-- C7: the short-key scenario input parses to exactly the six canonical
fields with their verbatim trimmed values, in insertion order. -/
theorem parseDebtDetailsForm_shortkey_scenario :
    parseDebtDetailsForm
        "ad=Əli Məmmədov; kredit=500 ₼; muddet=12 ay; tarix=01.01.2025; qaliq=300 ₼; muqavile=№X1" =
      [("customer_name", "Əli Məmmədov"), ("loan_amount", "500 ₼"), ("loan_term", "12 ay"),
       ("payment_date", "01.01.2025"), ("outstanding_amount", "300 ₼"), ("contract_number", "№X1")] := by
  decide

/-- The six canonical fields of the positional fallback, in order. -/
def POSITIONAL_KEYS : List String :=
  ["customer_name", "loan_amount", "loan_term", "payment_date",
   "outstanding_amount", "contract_number"]

theorem formPositionalCore_eq_zip (sl : List String) (hne : ∀ x ∈ sl, x ≠ "") :
    formPositionalCore sl =
      (if 5 ≤ sl.length then
        (POSITIONAL_KEYS.zip (sl.take 6)) ++
          (if 6 < sl.length then [("note", joinStr " " (sl.drop 6))] else [])
      else []) := by
  match sl, hne with
  | [], _ => decide
  | [a], _ => simp [formPositionalCore]
  | [a, b], _ => simp [formPositionalCore]
  | [a, b, c], _ => simp [formPositionalCore]
  | [a, b, c, d], _ => simp [formPositionalCore]
  | a :: b :: c :: d :: e :: rest, hne =>
    have ha : a ≠ "" := hne a (by simp)
    have hb : b ≠ "" := hne b (by simp)
    have hc : c ≠ "" := hne c (by simp)
    have hd : d ≠ "" := hne d (by simp)
    have he : e ≠ "" := hne e (by simp)
    cases rest with
    | nil =>
      simp [formPositionalCore, addIfTruthy, setKey, ha, hb, hc, hd, he, POSITIONAL_KEYS]
    | cons f rest2 =>
      have hf : f ≠ "" := hne f (by simp)
      cases rest2 with
      | nil =>
        simp [formPositionalCore, addIfTruthy, setKey, ha, hb, hc, hd, he, hf, POSITIONAL_KEYS]
      | cons g rest3 =>
        simp [formPositionalCore, addIfTruthy, setKey, ha, hb, hc, hd, he, hf, POSITIONAL_KEYS,
          joinStr]

theorem foldl_formStep_nomatch :
    ∀ lines : List String, (∀ l ∈ lines, lineMatch (jsTrim l) = none) →
      lines.foldl formStep ⟨[], none⟩ = ⟨[], none⟩ := by
  intro lines
  induction lines with
  | nil => intro _; rfl
  | cons l rest ih =>
    intro h
    have hstep : formStep ⟨[], none⟩ l = ⟨[], none⟩ := by
      simp only [formStep, h l (by simp)]
      split <;> rfl
    rw [List.foldl_cons, hstep]
    exact ih fun x hx => h x (by simp [hx])

/-- C8: on input none of whose lines matches the labelled pattern, the
parser falls back to positional assignment: with at least 5 non-empty
trimmed lines the first six go to the six canonical fields in order and
any further lines are joined with spaces into `note`; with fewer than 5
such lines the parse is empty. -/
theorem parseDebtDetailsForm_positional (text : String)
    (hnm : ∀ l ∈ formLines text, lineMatch (jsTrim l) = none) :
    parseDebtDetailsForm text =
      (let simpleLines := ((formLines text).map jsTrim).filter (· ≠ "")
       if 5 ≤ simpleLines.length then
         (POSITIONAL_KEYS.zip (simpleLines.take 6)) ++
           (if 6 < simpleLines.length then
             [("note", joinStr " " (simpleLines.drop 6))]
           else [])
       else []) := by
  have hcore := formPositionalCore_eq_zip (((formLines text).map jsTrim).filter (· ≠ ""))
    (by intro x hx; simpa using (List.mem_filter.mp hx).2)
  by_cases htext : text = ""
  · subst htext; decide
  · simp only [parseDebtDetailsForm, if_neg htext, foldl_formStep_nomatch _ hnm]
    show formPositional (formLines text) = _
    rw [formPositional, hcore]

/-- C8 witness: a concrete 7-line unlabelled input takes the positional
fallback shape. -/
theorem parseDebtDetailsForm_positional_witness :
    parseDebtDetailsForm "Məmmədov Ceyhun\n70 ₼\n10 gün\n11.03.2024\n147 ₼\n№A240\nqeyd" =
      (let simpleLines :=
        ((formLines "Məmmədov Ceyhun\n70 ₼\n10 gün\n11.03.2024\n147 ₼\n№A240\nqeyd").map
          jsTrim).filter (· ≠ "")
       if 5 ≤ simpleLines.length then
         (POSITIONAL_KEYS.zip (simpleLines.take 6)) ++
           (if 6 < simpleLines.length then
             [("note", joinStr " " (simpleLines.drop 6))]
           else [])
       else []) :=
  parseDebtDetailsForm_positional
    "Məmmədov Ceyhun\n70 ₼\n10 gün\n11.03.2024\n147 ₼\n№A240\nqeyd" (by decide)

def isLowerAlnum (c : Char) : Bool :=
  (97 ≤ c.toNat && c.toNat ≤ 122) || (48 ≤ c.toNat && c.toNat ≤ 57)

/-- Characters that can appear in a normalized key: lowercase ASCII
alphanumerics and the single space. -/
def okOut (c : Char) : Bool := isLowerAlnum c || c = ' '

/-- Adjacent characters of a collapsed string are never both spaces. -/
def noAdjSp (a b : Char) : Prop := ¬(a = ' ' ∧ b = ' ')

theorem isLowerAlnum_not_ws (c : Char) (h : isLowerAlnum c = true) : jsIsWs c = false := by
  have h' : (97 ≤ c.toNat ∧ c.toNat ≤ 122) ∨ (48 ≤ c.toNat ∧ c.toNat ≤ 57) := by
    simpa [isLowerAlnum] using h
  simp only [jsIsWs, Bool.or_eq_false_iff, decide_eq_false_iff_not]
  refine ⟨⟨⟨⟨⟨?_, ?_⟩, ?_⟩, ?_⟩, ?_⟩, ?_⟩ <;>
    first
      | (intro hc; subst hc; rcases h' with ⟨h1, h2⟩ | ⟨h1, h2⟩ <;> revert h1 h2 <;> decide)
      | (intro hc; rcases h' with ⟨h1, h2⟩ | ⟨h1, h2⟩ <;> omega)

theorem okOut_cases (c : Char) (hok : okOut c = true) : isLowerAlnum c = true ∨ c = ' ' := by
  simpa [okOut] using hok

theorem okOut_space_of_ws (c : Char) (hok : okOut c = true) (hws : jsIsWs c = true) : c = ' ' := by
  rcases okOut_cases c hok with h | h
  · rw [isLowerAlnum_not_ws c h] at hws; exact absurd hws (by simp)
  · exact h

theorem azRep_okOut (c : Char) (hok : okOut c = true) : azRep c = c := by
  unfold azRep
  split_ifs with h1 h2 h3 h4 h5 h6 h7
  · rcases h1 with rfl | rfl <;> exact absurd hok (by decide)
  · rcases h2 with rfl | rfl <;> exact absurd hok (by decide)
  · rcases h3 with rfl | rfl <;> exact absurd hok (by decide)
  · rcases h4 with rfl | rfl <;> exact absurd hok (by decide)
  · rcases h5 with rfl | rfl <;> exact absurd hok (by decide)
  · rcases h6 with rfl | rfl <;> exact absurd hok (by decide)
  · rcases h7 with rfl | rfl <;> exact absurd hok (by decide)
  · rfl

theorem jsToLower_okOut (c : Char) (hok : okOut c = true) : jsToLower c = c := by
  unfold jsToLower
  rcases okOut_cases c hok with h | h
  · have h' : (97 ≤ c.toNat ∧ c.toNat ≤ 122) ∨ (48 ≤ c.toNat ∧ c.toNat ≤ 57) := by
      simpa [isLowerAlnum] using h
    rw [if_neg]
    rcases h' with ⟨h1, h2⟩ | ⟨h1, h2⟩ <;> omega
  · subst h; decide

theorem sanitizeChar_okOut (c : Char) (hok : okOut c = true) : sanitizeChar c = c := by
  unfold sanitizeChar keptBySanitize
  rcases okOut_cases c hok with h | h
  · rw [if_pos]
    have h' : (97 ≤ c.toNat ∧ c.toNat ≤ 122) ∨ (48 ≤ c.toNat ∧ c.toNat ≤ 57) := by
      simpa [isLowerAlnum] using h
    rcases h' with ⟨h1, h2⟩ | ⟨h1, h2⟩ <;> simp [h1, h2]
  · subst h; decide

theorem keptBySanitize_sanitizeChar (c : Char) : keptBySanitize (sanitizeChar c) = true := by
  unfold sanitizeChar
  split
  · assumption
  · decide

theorem map_id_of_forall {α : Type} (f : α → α) :
    ∀ l : List α, (∀ x ∈ l, f x = x) → l.map f = l := by
  intro l
  induction l with
  | nil => intro _; rfl
  | cons x rest ih =>
    intro h
    simp only [List.map_cons, h x (by simp), ih fun y hy => h y (by simp [hy])]

theorem okOut_collapse :
    ∀ (l : List Char) (b : Bool), (∀ c ∈ l, keptBySanitize c = true) →
      ∀ x ∈ collapseWsAux b l, okOut x = true := by
  intro l
  induction l with
  | nil => intro b _ x hx; simp [collapseWsAux] at hx
  | cons c rest ih =>
    intro b h x hx
    have hc := h c (by simp)
    have hrest : ∀ c ∈ rest, keptBySanitize c = true := fun y hy => h y (by simp [hy])
    by_cases hws : jsIsWs c = true
    · cases b with
      | true =>
        simp only [collapseWsAux, hws, if_true] at hx
        exact ih true hrest x hx
      | false =>
        simp only [collapseWsAux, hws, if_true, Bool.false_eq_true, if_false] at hx
        rcases List.mem_cons.mp hx with rfl | hx'
        · decide
        · exact ih true hrest x hx'
    · rw [Bool.not_eq_true] at hws
      simp only [collapseWsAux, hws, Bool.false_eq_true, if_false] at hx
      rcases List.mem_cons.mp hx with rfl | hx'
      · have hc' : (97 ≤ x.toNat ∧ x.toNat ≤ 122 ∨ 48 ≤ x.toNat ∧ x.toNat ≤ 57) ∨
            jsIsWs x = true := by
          simpa [keptBySanitize, isLowerAlnum] using hc
        rcases hc' with (⟨h1, h2⟩ | ⟨h1, h2⟩) | h1
        · simp [okOut, isLowerAlnum, h1, h2]
        · simp [okOut, isLowerAlnum, h1, h2]
        · rw [h1] at hws; exact absurd hws (by simp)
      · exact ih false hrest x hx'

theorem chain_collapse :
    ∀ (l : List Char) (b : Bool),
      List.Chain' noAdjSp (collapseWsAux b l) ∧
        (b = true → (collapseWsAux true l).head? ≠ some ' ') := by
  intro l
  induction l with
  | nil =>
    intro b
    refine ⟨List.chain'_nil, ?_⟩
    intro _
    simp [collapseWsAux]
  | cons c rest ih =>
    intro b
    by_cases hws : jsIsWs c = true
    · constructor
      · cases b with
        | true =>
          simpa only [collapseWsAux, hws, if_true] using (ih true).1
        | false =>
          simp only [collapseWsAux, hws, if_true, Bool.false_eq_true, if_false]
          rw [List.chain'_cons']
          refine ⟨?_, (ih true).1⟩
          intro y hy hcon
          rcases hcon with ⟨-, rfl⟩
          exact (ih true).2 rfl (Option.mem_def.mp hy)
      · intro _
        simp only [collapseWsAux, hws, if_true]
        exact (ih true).2 rfl
    · rw [Bool.not_eq_true] at hws
      have hcsp : c ≠ ' ' := by
        intro hc; subst hc; exact absurd hws (by decide)
      constructor
      · simp only [collapseWsAux, hws, Bool.false_eq_true, if_false]
        rw [List.chain'_cons']
        refine ⟨?_, (ih false).1⟩
        intro y _ hcon
        exact hcsp hcon.1
      · intro _
        simp only [collapseWsAux, hws, Bool.false_eq_true, if_false]
        intro hcontra
        exact hcsp (by simpa using hcontra)

theorem collapse_fixpoint :
    ∀ l : List Char, (∀ c ∈ l, okOut c = true) → List.Chain' noAdjSp l →
      collapseWsAux false l = l ∧ (l.head? ≠ some ' ' → collapseWsAux true l = l) := by
  intro l
  induction l with
  | nil => intro _ _; exact ⟨rfl, fun _ => rfl⟩
  | cons c rest ih =>
    intro hok hchain
    have hokc := hok c (by simp)
    have hokrest : ∀ x ∈ rest, okOut x = true := fun y hy => hok y (by simp [hy])
    have hchainrest : List.Chain' noAdjSp rest := (List.chain'_cons'.mp hchain).2
    by_cases hws : jsIsWs c = true
    · have hcsp : c = ' ' := okOut_space_of_ws c hokc hws
      subst hcsp
      have hresthead : rest.head? ≠ some ' ' := by
        intro hcon
        exact (List.chain'_cons'.mp hchain).1 ' ' (Option.mem_def.mpr hcon) ⟨rfl, rfl⟩
      constructor
      · simp only [collapseWsAux, hws, if_true, Bool.false_eq_true, if_false]
        rw [(ih hokrest hchainrest).2 hresthead]
      · intro hhead
        exact absurd (rfl : (' ' :: rest).head? = some ' ') hhead
    · rw [Bool.not_eq_true] at hws
      constructor
      · simp only [collapseWsAux, hws, Bool.false_eq_true, if_false]
        rw [(ih hokrest hchainrest).1]
      · intro _
        simp only [collapseWsAux, hws, Bool.false_eq_true, if_false]
        rw [(ih hokrest hchainrest).1]

theorem dropWhile_head_false {α : Type} (p : α → Bool) :
    ∀ l : List α, ∀ c, (l.dropWhile p).head? = some c → p c = false := by
  intro l
  induction l with
  | nil => intro c h; simp [List.dropWhile] at h
  | cons x rest ih =>
    intro c h
    by_cases hx : p x = true
    · rw [List.dropWhile_cons_of_pos hx] at h
      exact ih c h
    · rw [Bool.not_eq_true] at hx
      rw [List.dropWhile_cons_of_neg (by simp [hx])] at h
      simp at h
      rw [← h]; exact hx

theorem dropWhile_of_head_false {α : Type} (p : α → Bool) (l : List α)
    (h : ∀ c, l.head? = some c → p c = false) : l.dropWhile p = l := by
  cases l with
  | nil => rfl
  | cons x rest =>
    rw [List.dropWhile_cons_of_neg]
    simp [h x rfl]

theorem dropWhile_idem {α : Type} (p : α → Bool) (l : List α) :
    (l.dropWhile p).dropWhile p = l.dropWhile p :=
  dropWhile_of_head_false p _ (dropWhile_head_false p l)

theorem dropTrailWs_isPrefixOf (l : List Char) :
    ((l.reverse.dropWhile jsIsWs).reverse) <+: l := by
  rw [← List.reverse_suffix, List.reverse_reverse]
  exact List.dropWhile_suffix jsIsWs

theorem trimChars_idem (l : List Char) : trimChars (trimChars l) = trimChars l := by
  unfold trimChars
  set A := l.dropWhile jsIsWs with hA
  set y := (A.reverse.dropWhile jsIsWs).reverse with hy
  have hdropy : y.dropWhile jsIsWs = y := by
    apply dropWhile_of_head_false
    intro c hc
    have hpre : y <+: A := hy ▸ dropTrailWs_isPrefixOf A
    obtain ⟨t, ht⟩ := hpre
    have hyne : y ≠ [] := by
      intro hnil
      rw [hnil] at hc
      simp at hc
    have : A.head? = some c := by
      rw [← ht, List.head?_append, hc]
      rfl
    exact dropWhile_head_false jsIsWs l c (hA ▸ this)
  rw [hdropy]
  rw [hy, List.reverse_reverse, dropWhile_idem]

theorem mem_trimChars {c : Char} {l : List Char} (h : c ∈ trimChars l) : c ∈ l := by
  unfold trimChars at h
  rw [List.mem_reverse] at h
  have h1 := (List.dropWhile_sublist jsIsWs).mem h
  rw [List.mem_reverse] at h1
  exact (List.dropWhile_sublist jsIsWs).mem h1

theorem chain_trimChars {l : List Char} (h : List.Chain' noAdjSp l) :
    List.Chain' noAdjSp (trimChars l) := by
  unfold trimChars
  have h1 : List.Chain' noAdjSp (l.dropWhile jsIsWs) :=
    h.suffix (List.dropWhile_suffix jsIsWs)
  exact h1.prefix (dropTrailWs_isPrefixOf _)

/-- C9: `normalizeFormKey` is idempotent. -/
theorem normalizeFormKey_idempotent (x : String) :
    normalizeFormKey (normalizeFormKey x) = normalizeFormKey x := by
  unfold normalizeFormKey
  show String.mk (normalizeFormKeyChars (normalizeFormKeyChars x.data)) = _
  have core : ∀ cs : List Char,
      normalizeFormKeyChars (normalizeFormKeyChars cs) = normalizeFormKeyChars cs := by
    intro cs
    set z := ((cs.map azRep).map jsToLower).map sanitizeChar with hz
    have hkept : ∀ c ∈ z, keptBySanitize c = true := by
      intro c hc
      rw [hz] at hc
      obtain ⟨c', _, rfl⟩ := List.mem_map.mp hc
      exact keptBySanitize_sanitizeChar c'
    set w := collapseWsAux false z with hw
    set y := trimChars w with hy2
    have hokw : ∀ c ∈ w, okOut c = true := fun c hc => okOut_collapse z false hkept c (hw ▸ hc)
    have hchainw : List.Chain' noAdjSp w := hw ▸ (chain_collapse z false).1
    have hoky : ∀ c ∈ y, okOut c = true := fun c hc => hokw c (mem_trimChars (hy2 ▸ hc))
    have hchainy : List.Chain' noAdjSp y := hy2 ▸ chain_trimChars hchainw
    have hmaps : ((y.map azRep).map jsToLower).map sanitizeChar = y := by
      rw [map_id_of_forall azRep y (fun c hc => azRep_okOut c (hoky c hc))]
      rw [map_id_of_forall jsToLower y (fun c hc => jsToLower_okOut c (hoky c hc))]
      rw [map_id_of_forall sanitizeChar y (fun c hc => sanitizeChar_okOut c (hoky c hc))]
    show normalizeFormKeyChars y = y
    rw [normalizeFormKeyChars, hmaps, (collapse_fixpoint y hoky hchainy).1, hy2,
      trimChars_idem]
  rw [core]
